import Mathlib

/-
Verification development for the binary-options crypto pricing scripts.

The repository estimates the risk-neutral probability that a cryptocurrency
trades at or above a strike K at a given expiration, from Deribit option
quotes.  The numerical core is embedded here over exact arithmetic:
the quote filter, the quadratic interpolation of the strike curve, the
finite-difference digital extraction, the pricer, the expiration-date
deduplication, and the `find_probability` entry point of
`thales_traded_exp_date.py`.  Network fetching, plotting and console
printing are out of scope and enter only as inputs.

Conventions:
- Python floats are embedded as exact numbers: `ℚ` for the quote/curve
  arithmetic, `ℝ` wherever `np.exp` appears.
- Python string operations used by the scripts (`str.split('-')`,
  `str.strip()`, `s[-1]`, `int(s)`) are embedded as executable helpers
  below; `int(s)` is modelled on digit strings only (Deribit strike
  fields are always decimal digits; Python would raise otherwise).
-/

/-- The fixed discount rate of all scripts: `discount_rate = 0.0525`. -/
def discount_rate : ℝ := 0.0525

/-- Model of Python `s.split(sep)` for a one-character separator, on the
character list of the string.  `"".split('-') = [""]`, as in Python. -/
def pySplitChars (sep : Char) : List Char → List (List Char)
  | [] => [[]]
  | c :: rest =>
    let r := pySplitChars sep rest
    if c = sep then [] :: r
    else (c :: r.headD []) :: r.tail

/-- Model of Python `s.split(sep)` returning strings. -/
def pySplit (sep : Char) (s : String) : List String :=
  (pySplitChars sep s.data).map String.mk

/-- Model of Python `s.strip()` (the scripts only ever strip the space
that `strftime "%e..."` pads single-digit days with). -/
def pyStrip (s : String) : String :=
  String.mk (((s.data.dropWhile (fun c => c = ' ')).reverse.dropWhile (fun c => c = ' ')).reverse)

/-- Model of Python `s[-1]`; the scripts apply it to nonempty Deribit
instrument names, so the default for the empty string is never hit. -/
def pyLast (s : String) : Char :=
  s.data.getLastD ' '

/-- Model of Python `int(s)` on a string of decimal digits. -/
def pyInt (s : String) : ℤ :=
  ((s.data.foldl (fun a c => 10 * a + (c.toNat - 48)) 0 : ℕ) : ℤ)

/-- Error taxonomy of the pipeline.  `InvalidSpotPrice` models the
`print` + `exit()` that `find_probability` performs on a zero spot price;
`ScipyValueError` models the uncaught library exception that
`sc.interpolate.interp1d(..., kind='quadratic')` raises when given fewer
than 3 points; `InsufficientData` is the typed failure the spec requires
for that situation (the scripts never produce it). -/
inductive PipelineError
  | InvalidSpotPrice
  | ScipyValueError
  | InsufficientData

/-- The quadratic through three sample points, in Lagrange form. -/
def lagrange3 (p0 p1 p2 : ℚ × ℚ) (x : ℚ) : ℚ :=
  p0.2 * ((x - p1.1) * (x - p2.1)) / ((p0.1 - p1.1) * (p0.1 - p2.1))
  + p1.2 * ((x - p0.1) * (x - p2.1)) / ((p1.1 - p0.1) * (p1.1 - p2.1))
  + p2.2 * ((x - p0.1) * (x - p1.1)) / ((p2.1 - p0.1) * (p2.1 - p1.1))

/-- Modelled from the spec: the evaluator produced by
`sc.interpolate.interp1d(strikes, prices, kind='quadratic',
fill_value='extrapolate')`, whose source is not part of this repository.
Per the spec it is a quadratic interpolant through the sample points
(ascending distinct strikes), defined for every input: each point is
evaluated on the quadratic through three neighbouring samples, and inputs
outside the sample range continue the first/last quadratic piece
(extrapolation).  Lists of fewer than 3 points are given the junk value 0;
the guarded constructor `interp1d` below never exposes that case. -/
def evalQuadSpline : List (ℚ × ℚ) → ℚ → ℚ
  | p0 :: p1 :: p2 :: p3 :: rest, x =>
    if x ≤ p1.1 then lagrange3 p0 p1 p2 x
    else evalQuadSpline (p1 :: p2 :: p3 :: rest) x
  | [p0, p1, p2], x => lagrange3 p0 p1 p2 x
  | _, _ => 0

/-- Modelled from the spec: `sc.interpolate.interp1d(..., kind='quadratic',
fill_value='extrapolate')`.  Building the interpolant with fewer than 3
points raises a library `ValueError`; otherwise the returned evaluator is
total (extrapolation, never an out-of-range error). -/
def interp1d (pts : List (ℚ × ℚ)) : Except PipelineError (ℚ → ℚ) :=
  if pts.length < 3 then Except.error PipelineError.ScipyValueError
  else Except.ok (evalQuadSpline pts)

/-- The module-scope quote filter of
`ITM probabilities for any strike and exp date.py` (and of both
`printing continuously` scripts): walk the `(strike, mark_price)` pair
list, keep strikes with `K * 0.7 <= strike <= K * 1.3`, and collect the
kept strikes and their dollar prices `mark_price * price` into two
parallel lists. -/
def filterQuotes : List (ℤ × ℚ) → ℚ → ℚ → List ℤ × List ℚ
  | [], _, _ => ([], [])
  | (s, mp) :: rest, K, price =>
    let t := filterQuotes rest K price
    if K * 0.7 ≤ (s : ℚ) ∧ (s : ℚ) ≤ K * 1.3 then (s :: t.1, mp * price :: t.2)
    else t

/-- The fit stage that follows the filter at module scope:
`Interpolation = sc.interpolate.interp1d(strikes, prices, kind='quadratic',
fill_value='extrapolate')`.  There is no point-count guard in the source;
a short list reaches the library call directly. -/
def fitStrikeCurve (price_list : List (ℤ × ℚ)) (K : ℚ) (price : ℚ) :
    Except PipelineError (ℚ → ℚ) :=
  let fq := filterQuotes price_list K price
  interp1d ((fq.1.map (fun s => (s : ℚ))).zip fq.2)

/-- The digital extraction of the scripts (module scope in
`ITM probabilities for any strike and exp date.py`, per-strike in
`find_probability`): `dstrike = price / 10000`, and
`probability_ITM = ((Interpolation(K - dstrike/2) - Interpolation(K + dstrike/2)) / dstrike)
 * np.exp(time_to_expiration * discount_rate)`. -/
noncomputable def probability_ITM (Interpolation : ℚ → ℚ) (price K : ℚ)
    (time_to_expiration : ℝ) : ℝ :=
  let dstrike := price / 10000
  (((Interpolation (K - dstrike / 2) - Interpolation (K + dstrike / 2)) / dstrike : ℚ) : ℝ)
    * Real.exp (time_to_expiration * discount_rate)

/-- Modelled from the spec: the digital extractor, following the spec text
step by step.  «Choose `dstrike = spot_price / 10000`»; «evaluate the curve
at `K - dstrike/2` and `K + dstrike/2`»;
«`digital_value = (price(K - dstrike/2) - price(K + dstrike/2)) / dstrike`»;
return the raw ITM probability
`digital_value * exp(time_to_expiration * discount_rate)`. -/
noncomputable def digitalExtractorSpec (priceFn : ℚ → ℚ) (spot_price K : ℚ)
    (time_to_expiration : ℝ) : ℝ :=
  let dstrike := spot_price / 10000
  let digital_value := (priceFn (K - dstrike / 2) - priceFn (K + dstrike / 2)) / dstrike
  ((digital_value : ℚ) : ℝ) * Real.exp (time_to_expiration * discount_rate)

/-- The pricer: `price_yes = predicted_probability * np.exp(-time_to_expiration * discount_rate)`. -/
noncomputable def price_yes (predicted_probability time_to_expiration : ℝ) : ℝ :=
  predicted_probability * Real.exp (-time_to_expiration * discount_rate)

/-- The pricer: `price_no = np.exp(-discount_rate * time_to_expiration) - price_yes`. -/
noncomputable def price_no (predicted_probability time_to_expiration : ℝ) : ℝ :=
  Real.exp (-discount_rate * time_to_expiration)
    - price_yes predicted_probability time_to_expiration

/-- The expiration-date collection loop of the module-scope scripts:
`date = name.split('-')[1]` is parsed (`datetime.strptime`, embedded as an
arbitrary `parse` function into a type with decidable equality) and
appended only if not already present («Remove double dates»). -/
def collectDates {D : Type} [DecidableEq D] (parse : String → D)
    (option_names : List String) : List D :=
  option_names.foldl (fun dates name =>
    let date := parse ((pySplit '-' name).getD 1 "")
    if date ∈ dates then dates else dates ++ [date]) []

/-- The quote-selection loop of `find_probability`
(`thales_traded_exp_date.py` lines 125-135): for each book item, keep it
when `date_string.strip() == instrument_name.split('-')[1]` and
`instrument_name[-1] == 'C'` and the name has at least 3 dash-separated
parts; the kept entry pairs `int(parts[2])` with `mark_price * price`. -/
def selectQuotes : List (String × ℚ) → String → ℚ → List (ℚ × ℚ)
  | [], _, _ => []
  | (instrument_name, mark_price) :: rest, date_string, price =>
    let tail := selectQuotes rest date_string price
    let parts := pySplit '-' instrument_name
    if pyStrip date_string = parts.getD 1 "" ∧ pyLast instrument_name = 'C' then
      if 3 ≤ parts.length then
        ((pyInt (parts.getD 2 "") : ℚ), mark_price * price) :: tail
      else tail
    else tail

/-- The strike curve built by `find_probability`:
`Interpolation = sc.interpolate.interp1d(strikes, prices, kind='quadratic',
fill_value='extrapolate')` over the selected quotes. -/
def strikeCurve (filtered_book : List (String × ℚ)) (date_string : String)
    (price : ℚ) : Except PipelineError (ℚ → ℚ) :=
  interp1d (selectQuotes filtered_book date_string price)

/-- The per-strike loop of `find_probability`: `probs = []`, then for each
`strike` in `strikelist`, append the digital-extraction probability. -/
noncomputable def probLoop (Interpolation : ℚ → ℚ) (price : ℚ)
    (time_to_expiration : ℝ) (strikelist : List ℚ) : List ℝ :=
  strikelist.foldl
    (fun probs strike => probs ++ [probability_ITM Interpolation price strike time_to_expiration])
    []

/-- `find_probability(coin, expiration_time, strikelist)` of
`thales_traded_exp_date.py`, with the external fetches passed as inputs:
`price` is the fetched index price, `filtered_book` the
`(instrument_name, mark_price)` book summary, `date_string` the
`strftime("%e%b%y").upper()` rendering of the expiration (calendar
formatting is a library call, modelled as an input), and
`time_to_expiration` the year fraction computed from `datetime.now()`.
A zero spot price prints an error and exits (`InvalidSpotPrice`);
otherwise the strike curve is fitted once and the digital extraction is
applied to every requested strike in order. -/
noncomputable def find_probability (price : ℚ) (filtered_book : List (String × ℚ))
    (date_string : String) (strikelist : List ℚ) (time_to_expiration : ℝ) :
    Except PipelineError (ℚ × List ℝ) :=
  if price = 0 then Except.error PipelineError.InvalidSpotPrice
  else
    match strikeCurve filtered_book date_string price with
    | Except.error e => Except.error e
    | Except.ok Interpolation =>
        Except.ok (price, probLoop Interpolation price time_to_expiration strikelist)

/-- Boolean test that a sample list has strictly increasing first
components (the spec's StrikeCurve invariant: strikes sorted ascending
with no duplicates). -/
def strictIncr : List (ℚ × ℚ) → Bool
  | p :: q :: rest => (decide (p.1 < q.1) && strictIncr (q :: rest))
  | _ => true

lemma strictIncr_tail (p : ℚ × ℚ) (l : List (ℚ × ℚ))
    (h : strictIncr (p :: l) = true) : strictIncr l = true := by
  cases l with
  | nil => rfl
  | cons q t =>
    simp only [strictIncr, Bool.and_eq_true] at h
    exact h.2

lemma strictIncr_head_lt (q : ℚ × ℚ) (l : List (ℚ × ℚ))
    (h : strictIncr (q :: l) = true) : ∀ r ∈ l, q.1 < r.1 := by
  induction l generalizing q with
  | nil => intro r hr; simp at hr
  | cons r0 t ih =>
    intro r hr
    simp only [strictIncr, Bool.and_eq_true, decide_eq_true_eq] at h
    rcases List.mem_cons.mp hr with hr0 | hrt
    · subst hr0; exact h.1
    · exact lt_trans h.1 (ih r0 h.2 r hrt)

lemma lagrange3_node0 (p0 p1 p2 : ℚ × ℚ) (h01 : p0.1 ≠ p1.1) (h02 : p0.1 ≠ p2.1)
    (h12 : p1.1 ≠ p2.1) : lagrange3 p0 p1 p2 p0.1 = p0.2 := by
  have h1 : p0.1 - p1.1 ≠ 0 := sub_ne_zero.mpr h01
  have h2 : p0.1 - p2.1 ≠ 0 := sub_ne_zero.mpr h02
  have h3 : p1.1 - p2.1 ≠ 0 := sub_ne_zero.mpr h12
  have h4 : p1.1 - p0.1 ≠ 0 := sub_ne_zero.mpr (Ne.symm h01)
  have h5 : p2.1 - p0.1 ≠ 0 := sub_ne_zero.mpr (Ne.symm h02)
  have h6 : p2.1 - p1.1 ≠ 0 := sub_ne_zero.mpr (Ne.symm h12)
  unfold lagrange3
  field_simp

lemma lagrange3_node1 (p0 p1 p2 : ℚ × ℚ) (h01 : p0.1 ≠ p1.1) (h02 : p0.1 ≠ p2.1)
    (h12 : p1.1 ≠ p2.1) : lagrange3 p0 p1 p2 p1.1 = p1.2 := by
  have h1 : p0.1 - p1.1 ≠ 0 := sub_ne_zero.mpr h01
  have h2 : p0.1 - p2.1 ≠ 0 := sub_ne_zero.mpr h02
  have h3 : p1.1 - p2.1 ≠ 0 := sub_ne_zero.mpr h12
  have h4 : p1.1 - p0.1 ≠ 0 := sub_ne_zero.mpr (Ne.symm h01)
  have h5 : p2.1 - p0.1 ≠ 0 := sub_ne_zero.mpr (Ne.symm h02)
  have h6 : p2.1 - p1.1 ≠ 0 := sub_ne_zero.mpr (Ne.symm h12)
  unfold lagrange3
  field_simp

lemma lagrange3_node2 (p0 p1 p2 : ℚ × ℚ) (h01 : p0.1 ≠ p1.1) (h02 : p0.1 ≠ p2.1)
    (h12 : p1.1 ≠ p2.1) : lagrange3 p0 p1 p2 p2.1 = p2.2 := by
  have h1 : p0.1 - p1.1 ≠ 0 := sub_ne_zero.mpr h01
  have h2 : p0.1 - p2.1 ≠ 0 := sub_ne_zero.mpr h02
  have h3 : p1.1 - p2.1 ≠ 0 := sub_ne_zero.mpr h12
  have h4 : p1.1 - p0.1 ≠ 0 := sub_ne_zero.mpr (Ne.symm h01)
  have h5 : p2.1 - p0.1 ≠ 0 := sub_ne_zero.mpr (Ne.symm h02)
  have h6 : p2.1 - p1.1 ≠ 0 := sub_ne_zero.mpr (Ne.symm h12)
  unfold lagrange3
  field_simp

lemma evalQuadSpline_exact : ∀ (pts : List (ℚ × ℚ)), 3 ≤ pts.length →
    strictIncr pts = true → ∀ p ∈ pts, evalQuadSpline pts p.1 = p.2 := by
  intro pts
  induction pts with
  | nil => intro h; simp at h
  | cons p0 tl ih =>
    intro hlen hinc p hp
    rcases tl with _ | ⟨p1, tl1⟩
    · simp at hlen
    rcases tl1 with _ | ⟨p2, tl2⟩
    · simp at hlen
    rcases tl2 with _ | ⟨p3, rest⟩
    · have h01 : p0.1 < p1.1 := strictIncr_head_lt p0 [p1, p2] hinc p1 (by simp)
      have h02 : p0.1 < p2.1 := strictIncr_head_lt p0 [p1, p2] hinc p2 (by simp)
      have h12 : p1.1 < p2.1 :=
        strictIncr_head_lt p1 [p2] (strictIncr_tail p0 [p1, p2] hinc) p2 (by simp)
      simp only [List.mem_cons, List.not_mem_nil, or_false] at hp
      rcases hp with hp | hp | hp
      · rw [hp, evalQuadSpline]
        exact lagrange3_node0 p0 p1 p2 (ne_of_lt h01) (ne_of_lt h02) (ne_of_lt h12)
      · rw [hp, evalQuadSpline]
        exact lagrange3_node1 p0 p1 p2 (ne_of_lt h01) (ne_of_lt h02) (ne_of_lt h12)
      · rw [hp, evalQuadSpline]
        exact lagrange3_node2 p0 p1 p2 (ne_of_lt h01) (ne_of_lt h02) (ne_of_lt h12)
    · have h01 : p0.1 < p1.1 := strictIncr_head_lt p0 _ hinc p1 (by simp)
      have h02 : p0.1 < p2.1 := strictIncr_head_lt p0 _ hinc p2 (by simp)
      have htl : strictIncr (p1 :: p2 :: p3 :: rest) = true :=
        strictIncr_tail p0 _ hinc
      have h12 : p1.1 < p2.1 := strictIncr_head_lt p1 _ htl p2 (by simp)
      rcases List.mem_cons.mp hp with hp0 | hptl
      · subst hp0
        rw [evalQuadSpline, if_pos (le_of_lt h01)]
        exact lagrange3_node0 p p1 p2 (ne_of_lt h01) (ne_of_lt h02) (ne_of_lt h12)
      · rcases List.mem_cons.mp hptl with hp1 | hprest
        · subst hp1
          rw [evalQuadSpline, if_pos (le_refl p.1)]
          exact lagrange3_node1 p0 p p2 (ne_of_lt h01) (ne_of_lt h02) (ne_of_lt h12)
        · have hgt : p1.1 < p.1 := strictIncr_head_lt p1 _ htl p hprest
          rw [evalQuadSpline, if_neg (not_le.mpr hgt)]
          exact ih (by simp) htl p hptl

lemma foldl_append_map (f : ℚ → ℝ) : ∀ (l : List ℚ) (acc : List ℝ),
    l.foldl (fun a s => a ++ [f s]) acc = acc ++ l.map f := by
  intro l
  induction l with
  | nil => intro acc; simp
  | cons s t ih => intro acc; simp [List.foldl_cons, ih]

lemma probLoop_eq_map (Interpolation : ℚ → ℚ) (price : ℚ) (tte : ℝ) (sl : List ℚ) :
    probLoop Interpolation price tte sl
      = sl.map (fun K => probability_ITM Interpolation price K tte) := by
  unfold probLoop
  rw [foldl_append_map]
  simp

lemma collectDates_fold_nodup {D : Type} [DecidableEq D] (parse : String → D) :
    ∀ (names : List String) (acc : List D), acc.Nodup →
      (names.foldl (fun dates name =>
        let date := parse ((pySplit '-' name).getD 1 "")
        if date ∈ dates then dates else dates ++ [date]) acc).Nodup := by
  intro names
  induction names with
  | nil => intro acc h; simpa using h
  | cons n t ih =>
    intro acc h
    simp only [List.foldl_cons]
    apply ih
    split
    · exact h
    · rename_i hmem
      rw [List.nodup_append]
      refine ⟨h, List.nodup_singleton _, ?_⟩
      intro a ha hb
      simp only [List.mem_singleton] at hb
      subst hb
      exact hmem ha

/-- An order book for the witnesses below: three call quotes of one
expiration, as `(instrument_name, mark_price)` pairs. -/
def exampleBook : List (String × ℚ) :=
  [("BTC-22SEP23-24000-C", (1/10 : ℚ)),
   ("BTC-22SEP23-25000-C", (2/25 : ℚ)),
   ("BTC-22SEP23-26000-C", (1/20 : ℚ))]

/-- C1: for every strike-curve evaluator, spot price `s > 0`, strike `K`
and time to expiration, the digital extractor computes
`dstrike = s / 10000`, evaluates the curve at `K - dstrike/2` and
`K + dstrike/2`, forms
`digital_value = (price(K - dstrike/2) - price(K + dstrike/2)) / dstrike`,
and returns the raw ITM probability
`digital_value * exp(time_to_expiration * discount_rate)`: the code's
`probability_ITM` coincides with the spec's digital extractor. -/
theorem C1_digital_extractor_formula (priceFn : ℚ → ℚ) (s K : ℚ) (t : ℝ)
    (_hs : 0 < s) :
    probability_ITM priceFn s K t = digitalExtractorSpec priceFn s K t := rfl

/-- C1 witness: the formula equality at the identity evaluator, spot 1,
strike 0, time 0. -/
theorem C1_digital_extractor_formula_witness :
    (0 : ℚ) < 1 ∧
      probability_ITM (fun x => x) 1 0 0 = digitalExtractorSpec (fun x => x) 1 0 0 :=
  ⟨by decide, C1_digital_extractor_formula (fun x => x) 1 0 0 (by decide)⟩

/-- C2: with at least 3 sample points whose strikes are distinct (listed
ascending, the StrikeCurve invariant), the quadratic fit succeeds, the
fitted curve evaluated at each input strike returns exactly that input's
price, and the evaluator is defined at every input `x`, also outside the
sampled range (extrapolation succeeds, it is not an error). -/
theorem C2_interpolation_exact_and_total (pts : List (ℚ × ℚ))
    (hlen : 3 ≤ pts.length) (hinc : strictIncr pts = true) :
    ∃ f : ℚ → ℚ, interp1d pts = Except.ok f ∧ (∀ p ∈ pts, f p.1 = p.2) ∧
      ∀ x : ℚ, ∃ y : ℚ, f x = y := by
  refine ⟨evalQuadSpline pts, ?_, evalQuadSpline_exact pts hlen hinc,
    fun x => ⟨evalQuadSpline pts x, rfl⟩⟩
  unfold interp1d
  rw [if_neg (by omega)]

/-- C2 witness: the fit through `(0,1), (1,2), (2,5)`. -/
theorem C2_interpolation_exact_and_total_witness :
    3 ≤ ([((0:ℚ), (1:ℚ)), (1, 2), (2, 5)] : List (ℚ × ℚ)).length ∧
    strictIncr [((0:ℚ), (1:ℚ)), (1, 2), (2, 5)] = true ∧
    ∃ f : ℚ → ℚ,
      interp1d [((0:ℚ), (1:ℚ)), (1, 2), (2, 5)] = Except.ok f ∧
      (∀ p ∈ ([((0:ℚ), (1:ℚ)), (1, 2), (2, 5)] : List (ℚ × ℚ)), f p.1 = p.2) ∧
      ∀ x : ℚ, ∃ y : ℚ, f x = y :=
  ⟨by decide, by decide,
    C2_interpolation_exact_and_total [((0:ℚ), (1:ℚ)), (1, 2), (2, 5)]
      (by decide) (by decide)⟩

/-- C3: `price_yes = p * exp(-discount_rate * t)` and
`price_no = exp(-discount_rate * t) - price_yes`, so
`price_yes + price_no = exp(-discount_rate * t)` exactly, for every
probability input `p` — the sum is the discount factor, not 1. -/
theorem C3_discount_consistency (p t : ℝ) :
    price_yes p t + price_no p t = Real.exp (-discount_rate * t) := by
  unfold price_no
  ring

/-- C4: the quote filter keeps exactly the quotes whose strike satisfies
`K * 0.7 <= strike <= K * 1.3`; the kept strikes are those of the
surviving quotes in order, each kept dollar price is that quote's
underlying-denominated mark price times the index price, and no quote
outside the window contributes to either output list. -/
theorem C4_quote_filter_window (price_list : List (ℤ × ℚ)) (K price : ℚ) :
    (filterQuotes price_list K price).1
        = (price_list.filter
            (fun q => decide (K * 0.7 ≤ (q.1 : ℚ) ∧ (q.1 : ℚ) ≤ K * 1.3))).map
            (fun q => q.1) ∧
    (filterQuotes price_list K price).2
        = (price_list.filter
            (fun q => decide (K * 0.7 ≤ (q.1 : ℚ) ∧ (q.1 : ℚ) ≤ K * 1.3))).map
            (fun q => q.2 * price) := by
  induction price_list with
  | nil => exact ⟨rfl, rfl⟩
  | cons q rest ih =>
    obtain ⟨s, mp⟩ := q
    by_cases hw : K * 0.7 ≤ (s : ℚ) ∧ (s : ℚ) ≤ K * 1.3
    · constructor
      · simp [filterQuotes, hw, List.filter_cons, ih.1]
      · simp [filterQuotes, hw, List.filter_cons, ih.2]
    · constructor
      · simp [filterQuotes, hw, List.filter_cons, ih.1]
      · simp [filterQuotes, hw, List.filter_cons, ih.2]

/-- C5: a fetched spot price of zero makes `find_probability` abort with
`InvalidSpotPrice` (the source prints an error and calls `exit()`) before
the strike curve is built, so the division by `dstrike = price / 10000`
in the digital extractor is only ever reached with a nonzero spot. -/
theorem C5_zero_spot_aborts (price : ℚ) (filtered_book : List (String × ℚ))
    (date_string : String) (strikelist : List ℚ) (tte : ℝ)
    (hp : price = 0) :
    find_probability price filtered_book date_string strikelist tte
      = Except.error PipelineError.InvalidSpotPrice := by
  subst hp
  unfold find_probability
  rw [if_pos rfl]

/-- C5 witness: the abort at spot price 0. -/
theorem C5_zero_spot_aborts_witness :
    (0 : ℚ) = 0 ∧
      find_probability 0 exampleBook "22SEP23" [25000] 0
        = Except.error PipelineError.InvalidSpotPrice :=
  ⟨rfl, C5_zero_spot_aborts 0 exampleBook "22SEP23" [25000] 0 rfl⟩

/-- C6: the source has no point-count guard.  On a quote list where only
2 quotes survive the ±30% window, the module pipeline still calls the
quadratic fit and fails with the library's error, and in particular never
produces the typed `InsufficientData` failure the claim requires. -/
theorem C6_no_insufficient_data_guard :
    (filterQuotes [((25000 : ℤ), (1/10 : ℚ)), ((26000 : ℤ), (2/25 : ℚ))]
        25000 26000).1.length = 2 ∧
    fitStrikeCurve [((25000 : ℤ), (1/10 : ℚ)), ((26000 : ℤ), (2/25 : ℚ))]
        25000 26000 = Except.error PipelineError.ScipyValueError ∧
    fitStrikeCurve [((25000 : ℤ), (1/10 : ℚ)), ((26000 : ℤ), (2/25 : ℚ))]
        25000 26000 ≠ Except.error PipelineError.InsufficientData := by
  have hf : filterQuotes [((25000 : ℤ), (1/10 : ℚ)), ((26000 : ℤ), (2/25 : ℚ))]
      25000 26000
      = ([25000, 26000], [(1/10 : ℚ) * 26000, (2/25 : ℚ) * 26000]) := by
    norm_num [filterQuotes]
  have h2 : fitStrikeCurve [((25000 : ℤ), (1/10 : ℚ)), ((26000 : ℤ), (2/25 : ℚ))]
      25000 26000 = Except.error PipelineError.ScipyValueError := by
    unfold fitStrikeCurve
    rw [hf]
    rfl
  refine ⟨by rw [hf]; rfl, h2, ?_⟩
  rw [h2]
  simp

/-- C7: for a monotonically decreasing strike-curve evaluator (the
standard call-price shape) and a positive spot price, the raw
digital-extraction probability is non-negative. -/
theorem C7_digital_nonneg (Interpolation : ℚ → ℚ) (price K : ℚ) (t : ℝ)
    (hs : 0 < price)
    (hmono : ∀ x1 x2 : ℚ, x1 ≤ x2 → Interpolation x2 ≤ Interpolation x1) :
    0 ≤ probability_ITM Interpolation price K t := by
  simp only [probability_ITM]
  have hd : (0 : ℚ) < price / 10000 := by positivity
  have harg : K - price / 10000 / 2 ≤ K + price / 10000 / 2 := by linarith
  have hq : (0 : ℚ) ≤ (Interpolation (K - price / 10000 / 2)
      - Interpolation (K + price / 10000 / 2)) / (price / 10000) :=
    div_nonneg (sub_nonneg.mpr (hmono _ _ harg)) (le_of_lt hd)
  have hcast : (0 : ℝ) ≤ (((Interpolation (K - price / 10000 / 2)
      - Interpolation (K + price / 10000 / 2)) / (price / 10000) : ℚ) : ℝ) := by
    exact_mod_cast hq
  exact mul_nonneg hcast (le_of_lt (Real.exp_pos _))

/-- C7 witness: the decreasing evaluator `x ↦ -x` at spot 1. -/
theorem C7_digital_nonneg_witness :
    (0 : ℚ) < 1 ∧ 0 ≤ probability_ITM (fun x => -x) 1 0 0 :=
  ⟨by decide, C7_digital_nonneg (fun x => -x) 1 0 0 (by decide)
    (fun x1 x2 h => neg_le_neg h)⟩

/-- C8: whatever value `datetime.strptime` assigns to the date field of
each fetched instrument name, the «Remove double dates» loop produces a
list with no duplicate entries, so the dates handed to the
time-to-expiration computation and to the expiration interpolator are
duplicate-free. -/
theorem C8_dates_nodup {D : Type} [DecidableEq D] (parse : String → D)
    (option_names : List String) :
    (collectDates parse option_names).Nodup := by
  unfold collectDates
  exact collectDates_fold_nodup parse option_names [] List.nodup_nil

/-- C9: the estimation core is deterministic and stateless between
invocations: two calls of `find_probability` on identical inputs — same
spot price, same book, same date string, same strike list, same time
value — produce identical results; no hidden counter or cache can make
the second call differ from the first. -/
theorem C9_deterministic (price1 price2 : ℚ)
    (book1 book2 : List (String × ℚ)) (ds1 ds2 : String)
    (sl1 sl2 : List ℚ) (t1 t2 : ℝ)
    (hp : price1 = price2) (hb : book1 = book2) (hd : ds1 = ds2)
    (hs : sl1 = sl2) (ht : t1 = t2) :
    find_probability price1 book1 ds1 sl1 t1
      = find_probability price2 book2 ds2 sl2 t2 := by
  subst hp; subst hb; subst hd; subst hs; subst ht
  rfl

/-- C9 witness: two identical invocations on the example book agree. -/
theorem C9_deterministic_witness :
    find_probability 2 exampleBook "22SEP23" [25000] 0
      = find_probability 2 exampleBook "22SEP23" [25000] 0 :=
  C9_deterministic 2 2 exampleBook exampleBook "22SEP23" "22SEP23"
    [25000] [25000] 0 0 rfl rfl rfl rfl rfl

/-- C10: with a nonzero spot price and a fitted strike curve,
`find_probability` returns one probability per requested strike: the
output list is exactly the input strike list mapped through the digital
extraction, so it has the same length and its i-th entry is computed from
the i-th input strike; the immutable input list itself is only read. -/
theorem C10_per_strike_map (price : ℚ) (filtered_book : List (String × ℚ))
    (date_string : String) (strikelist : List ℚ) (tte : ℝ) (f : ℚ → ℚ)
    (hp : price ≠ 0)
    (hf : strikeCurve filtered_book date_string price = Except.ok f) :
    find_probability price filtered_book date_string strikelist tte
        = Except.ok (price, strikelist.map (fun K => probability_ITM f price K tte)) ∧
    (strikelist.map (fun K => probability_ITM f price K tte)).length
        = strikelist.length := by
  constructor
  · unfold find_probability
    rw [if_neg hp, hf]
    show Except.ok (price, probLoop f price tte strikelist)
        = Except.ok (price, strikelist.map (fun K => probability_ITM f price K tte))
    rw [probLoop_eq_map]
  · simp

/-- C10 witness: the example book with two requested strikes. -/
theorem C10_per_strike_map_witness :
    ((2 : ℚ) ≠ 0) ∧
    find_probability 2 exampleBook "22SEP23" [24500, 25500] 0
        = Except.ok (2, ([24500, 25500] : List ℚ).map
            (fun K => probability_ITM
              (evalQuadSpline (selectQuotes exampleBook "22SEP23" 2)) 2 K 0)) ∧
    (([24500, 25500] : List ℚ).map
        (fun K => probability_ITM
          (evalQuadSpline (selectQuotes exampleBook "22SEP23" 2)) 2 K 0)).length
        = ([24500, 25500] : List ℚ).length :=
  ⟨by decide,
    C10_per_strike_map 2 exampleBook "22SEP23" [24500, 25500] 0
      (evalQuadSpline (selectQuotes exampleBook "22SEP23" 2)) (by decide) rfl⟩
